import Mathlib

/-!
# Verification of the review-harvesting loop (`scraper_for_reviews.py`)

This file gives a shallow embedding of the harvester script
`src/scraper_for_reviews.py` and proves properties of it.  The rendering
surface (Playwright page, DOM) is treated as an external collaborator: every
value the script reads from it (visible card attributes, body text, the
current URL, operator keyboard input) is an input to the embedded functions,
while every pure computation of the script (key hashing, parsing, the
dedup / watermark / stall bookkeeping, the control flow of the round loop and
of the per-URL loop) is translated into Lean definitions.

Conventions:
* Python `str` is `String`; Python `int` is `Int` where a sign is possible
  (CLI arguments), `Nat` where the script only ever produces non-negative
  values (counters, positions).
* Python `set` of seen keys is a `List String` used only through membership
  and insertion, which preserves its semantics.
* Fallible surface reads are `Option` values (`none` = the read raised).
* `time.sleep` / `wait_for_timeout` and debug prints have no observable
  effect on the collected data and are dropped.
-/

set_option maxRecDepth 100000

namespace Scraper

/-! ## Bytes and SHA-1 (`sha1`, scraper_for_reviews.py line 58)

The script derives record keys with `hashlib.sha1(s.encode("utf-8")).hexdigest()`.
We embed UTF-8 encoding and the SHA-1 algorithm over `Nat` (32-bit words are
naturals reduced mod `2 ^ 32`). -/

/-- UTF-8 encoding of one code point, as a list of byte values. -/
def utf8Bytes (c : Char) : List Nat :=
  let u := c.toNat
  if u < 128 then [u]
  else if u < 2048 then [192 + u / 64, 128 + u % 64]
  else if u < 65536 then [224 + u / 4096, 128 + (u / 64) % 64, 128 + u % 64]
  else [240 + u / 262144, 128 + (u / 4096) % 64, 128 + (u / 64) % 64, 128 + u % 64]

/-- Python `s.encode("utf-8")` as a list of byte values. -/
def strBytes (s : String) : List Nat :=
  s.data.foldr (fun c acc => utf8Bytes c ++ acc) []

/-- The word modulus of SHA-1, `2 ^ 32`. -/
def w32 : Nat := 4294967296

/-- Rotate a 32-bit word (represented as a `Nat < 2 ^ 32`) left by `n`. -/
def rotl32 (n x : Nat) : Nat := ((x * 2 ^ n) % w32) ||| (x / 2 ^ (32 - n))

/-- SHA-1 round constant for round `i`. -/
def sha1K (i : Nat) : Nat :=
  if i < 20 then 0x5A827999
  else if i < 40 then 0x6ED9EBA1
  else if i < 60 then 0x8F1BBCDC
  else 0xCA62C1D6

/-- SHA-1 round function for round `i`. -/
def sha1F (i b c d : Nat) : Nat :=
  if i < 20 then (b &&& c) ||| ((b ^^^ 0xFFFFFFFF) &&& d)
  else if i < 40 then b ^^^ c ^^^ d
  else if i < 60 then (b &&& c) ||| (b &&& d) ||| (c &&& d)
  else b ^^^ c ^^^ d

/-- Big-endian 32-bit words from a list of bytes (groups of four). -/
def bytesToWords : List Nat → List Nat
  | a :: b :: c :: d :: rest => (((a * 256 + b) * 256 + c) * 256 + d) :: bytesToWords rest
  | _ => []

/-- Message-schedule extension: push `n` more words `w[i] = rotl1 (w[i-3] ^ w[i-8] ^ w[i-14] ^ w[i-16])`. -/
def sha1Extend : Nat → Array Nat → Array Nat
  | 0, ws => ws
  | n + 1, ws =>
    let i := ws.size
    let w := rotl32 1 ((ws.getD (i - 3) 0) ^^^ (ws.getD (i - 8) 0) ^^^
                       (ws.getD (i - 14) 0) ^^^ (ws.getD (i - 16) 0))
    sha1Extend n (ws.push w)

/-- The 80 SHA-1 rounds over one schedule `ws`, starting at round `i`. -/
def sha1Rounds (ws : Array Nat) : Nat → Nat → Nat × Nat × Nat × Nat × Nat → Nat × Nat × Nat × Nat × Nat
  | 0, _, st => st
  | n + 1, i, (a, b, c, d, e) =>
    let temp := (rotl32 5 a + sha1F i b c d + e + sha1K i + ws.getD i 0) % w32
    sha1Rounds ws n (i + 1) (temp, a, rotl32 30 b, c, d)

/-- Compress one 64-byte chunk into the running hash state. -/
def sha1Compress (h : Nat × Nat × Nat × Nat × Nat) (chunk : List Nat) :
    Nat × Nat × Nat × Nat × Nat :=
  let ws := sha1Extend 64 (Array.mk (bytesToWords chunk))
  let (h0, h1, h2, h3, h4) := h
  let (a, b, c, d, e) := sha1Rounds ws 80 0 (h0, h1, h2, h3, h4)
  ((h0 + a) % w32, (h1 + b) % w32, (h2 + c) % w32, (h3 + d) % w32, (h4 + e) % w32)

/-- SHA-1 padding: `0x80`, zeros to 56 mod 64, then the bit length big-endian. -/
def sha1Pad (msg : List Nat) : List Nat :=
  let len := msg.length
  let zeros := (120 - (len + 1) % 64) % 64
  msg ++ [128] ++ List.replicate zeros 0 ++
    [(8 * len / 2 ^ 56) % 256, (8 * len / 2 ^ 48) % 256, (8 * len / 2 ^ 40) % 256,
     (8 * len / 2 ^ 32) % 256, (8 * len / 2 ^ 24) % 256, (8 * len / 2 ^ 16) % 256,
     (8 * len / 2 ^ 8) % 256, (8 * len) % 256]

/-- Fold the compression function over all 64-byte chunks (`fuel` bounds the recursion;
it is instantiated with the padded length, which is always enough). -/
def sha1Chunks : Nat → List Nat → Nat × Nat × Nat × Nat × Nat → Nat × Nat × Nat × Nat × Nat
  | 0, _, h => h
  | fuel + 1, bytes, h =>
    match bytes with
    | [] => h
    | _ => sha1Chunks fuel (bytes.drop 64) (sha1Compress h (bytes.take 64))

/-- Lower-case hex digit for a nibble. -/
def hexChar (n : Nat) : Char :=
  if n < 10 then Char.ofNat (48 + n) else Char.ofNat (87 + n)

/-- Eight lower-case hex digits of a 32-bit word, most significant first. -/
def hex8 (x : Nat) : List Char :=
  (List.range 8).map (fun i => hexChar ((x / 16 ^ (7 - i)) % 16))

/-- SHA-1 hex digest of a byte list. -/
def sha1Digest (msg : List Nat) : String :=
  let padded := sha1Pad msg
  let (h0, h1, h2, h3, h4) :=
    sha1Chunks padded.length padded (0x67452301, 0xEFCDAB89, 0x98BADCFE, 0x10325476, 0xC3D2E1F0)
  String.mk (hex8 h0 ++ hex8 h1 ++ hex8 h2 ++ hex8 h3 ++ hex8 h4)

/-- Function `sha1` (line 58): `hashlib.sha1(s.encode("utf-8")).hexdigest()`. -/
def sha1 (s : String) : String := sha1Digest (strBytes s)

/-! ## String helpers

Python `in` on strings, `str.lower`, and the JS helpers of the extraction
script.  Python / JS lower-casing is full Unicode; the script only ever
compares ASCII command letters and Russian marker phrases, so the embedding
lower-cases ASCII `A`-`Z` and the Cyrillic range `А`-`Я` (plus `Ё`), which is
exact on every string the script handles. -/

/-- Lower-case one character (ASCII and basic Cyrillic). -/
def ruLowerChar (c : Char) : Char :=
  if 'A' ≤ c ∧ c ≤ 'Z' then Char.ofNat (c.toNat + 32)
  else if 'А' ≤ c ∧ c ≤ 'Я' then Char.ofNat (c.toNat + 32)
  else if c = 'Ё' then 'ё'
  else c

/-- Python `s.lower()` / JS `s.toLowerCase()` on the script's alphabet. -/
def ruLower (s : String) : String := String.mk (s.data.map ruLowerChar)

/-- Python `\s` on the script's data: ASCII whitespace (the Unicode
white-space class restricted to the code points the source pages produce). -/
def isPySpace (c : Char) : Bool :=
  c = ' ' || c = '\t' || c = '\n' || c = '\r' || c = '\x0b' || c = '\x0c'

/-- Python `str.strip()` / JS `String.prototype.trim` on the script's data:
drop leading and trailing whitespace. -/
def pyTrim (s : String) : String :=
  String.mk (((s.data.dropWhile isPySpace).reverse.dropWhile isPySpace).reverse)

/-- Python `x.replace(",", ".")` (line 187): the pattern is one character, so
this is a character map. -/
def commaToDot (s : String) : String :=
  String.mk (s.data.map (fun c => if c = ',' then '.' else c))

/-- Does `hay` start with `needle`? -/
def startsList : List Char → List Char → Bool
  | [], _ => true
  | _, [] => false
  | n :: ns, h :: hs => n = h && startsList ns hs

/-- Does `hay` contain `needle` as a contiguous substring (Python `needle in hay`)? -/
def containsList (needle : List Char) : List Char → Bool
  | [] => needle.isEmpty
  | h :: hs => startsList needle (h :: hs) || containsList needle hs

/-- Python `needle in hay` on strings. -/
def strContains (hay needle : String) : Bool := containsList needle.data hay.data

/-! ## Anti-automation detector (`detect_captcha_or_block`, lines 82-92) -/

/-- The observable rendering-surface state the detector consults: the current
address (`page.url or ""`) and the result of the bounded body-text read
(`none` when `page.locator("body").inner_text(timeout=1500)` raises, e.g. on
timeout). -/
structure PageState where
  url : String
  bodyRead : Option String
  deriving DecidableEq

/-- The fixed challenge marker phrases (line 87). -/
def captchaMarkers : List String :=
  ["подтвердите, что вы не робот", "я не робот", "captcha", "robot"]

/-- Function `detect_captcha_or_block` (lines 82-92): the address signal is checked
first; the body-text signal is read under a bounded timeout and any read
error yields `false` (fail open). -/
def detect_captcha_or_block (p : PageState) : Bool :=
  let url := ruLower p.url
  if strContains url "showcaptcha" || strContains url "captcha" then true
  else
    match p.bodyRead with
    | none => false
    | some t => captchaMarkers.any (fun m => strContains (ruLower t) m)

/-! ## Interactive recovery handler (`handle_captcha_interactive`, lines 254-283)

The operator's keyboard input and the surface state at each poll are external;
a poll script is a list of `(raw command line, page state at that poll)`
pairs.  The real loop blocks forever if the operator never resolves it; the
embedding returns `none` in that case. -/

/-- The polling loop of `handle_captcha_interactive` (lines 272-283):
`q` quits, `s` skips, anything else re-runs the detector and resolves
`continue` only if the challenge has cleared. -/
def interactLoop : List (String × PageState) → Option String
  | [] => none
  | (raw, pg) :: rest =>
    let cmd := ruLower (pyTrim raw)
    if cmd = "q" then some "quit"
    else if cmd = "s" then some "skip"
    else if !(detect_captcha_or_block pg) then some "continue"
    else interactLoop rest

/-- Function `handle_captcha_interactive` (lines 254-283).  In headless mode it
resolves to `"skip"` immediately, without consulting the operator script. -/
def handle_captcha_interactive (headful : Bool) (script : List (String × PageState)) :
    Option String :=
  if !headful then some "skip" else interactLoop script

/-! ## Field parsers (`parse_caption` lines 174-179, `to_float` lines 182-189,
`ORG_ID_RE` line 54) -/

/-- Numeric value of a digit string (`int(...)` on a `\d+` match). -/
def digitsVal (ds : List Char) : Nat :=
  ds.foldl (fun acc c => acc * 10 + (c.toNat - 48)) 0

/-- Case-insensitive prefix test against an already-lower-case pattern. -/
def ciStarts (pat : List Char) (cs : List Char) : Bool :=
  startsList pat (cs.map ruLowerChar)

/-- Match the tail `\s+(?P<level>\d+)\s*уров` of `CAPTION_RE` (line 55) at the
start of `cs`, returning the numeric level.  The character classes are
disjoint from their successors, so greedy matching needs no backtracking. -/
def capMatchTail (cs : List Char) : Option Nat :=
  let (ws, r1) := cs.span isPySpace
  if ws.isEmpty then none
  else
    let (ds, r2) := r1.span Char.isDigit
    if ds.isEmpty then none
    else
      let r3 := (r2.span isPySpace).2
      if ciStarts "уров".data r3 then some (digitsVal ds) else none

/-- Search for the lazy split of `CAPTION_RE`: the shortest non-empty title
(`.+?`, which cannot cross a newline) followed by a match of the tail. -/
def capSearch : List Char → List Char → Option (List Char × Nat)
  | _, [] => none
  | titleRev, c :: rest =>
    if c = '\n' then none
    else
      match capMatchTail rest with
      | some lvl => some ((c :: titleRev).reverse, lvl)
      | none => capSearch (c :: titleRev) rest

/-- Function `parse_caption` (lines 174-179): returns the stripped caption, the badge
title, and the numeric level (`none` when `CAPTION_RE` does not match). -/
def parse_caption (caption : String) : String × String × Option Nat :=
  let cap := pyTrim caption
  match capSearch [] cap.data with
  | none => (cap, "", none)
  | some (title, lvl) => (cap, pyTrim (String.mk title), some lvl)

/-- A Python `float` value.  The numeric payload is kept exact as a rational:
the claims about this script depend only on parse success versus failure,
never on IEEE-754 rounding. -/
inductive PyFloat where
  | finite (q : ℚ)
  | infinite (neg : Bool)
  | nan
  deriving DecidableEq, Repr

/-- Span of decimal digits. -/
def spanDigits (cs : List Char) : List Char × List Char := cs.span Char.isDigit

/-- Parse the body of a Python `float()` literal after an optional sign:
`inf`/`infinity`/`nan` (case-insensitive) or a decimal with optional
fraction and exponent.  Underscore digit grouping is not produced by the
source pages and is omitted. -/
def pyFloatBody (neg : Bool) (cs : List Char) : Option PyFloat :=
  let low := cs.map ruLowerChar
  if low = "inf".data || low = "infinity".data then some (.infinite neg)
  else if low = "nan".data then some .nan
  else
    let (ipart, r1) := spanDigits cs
    let (fpart, r2) :=
      match r1 with
      | '.' :: r => spanDigits r
      | _ => ([], r1)
    if ipart.isEmpty ∧ fpart.isEmpty then none
    else
      let r2' := if r1 ≠ [] ∧ r1.headD ' ' = '.' then r2 else r1
      let mant : Int := (if neg then -1 else 1) * (digitsVal (ipart ++ fpart) : Int)
      let fl := fpart.length
      match r2' with
      | [] => some (.finite (mkRat mant (10 ^ fl)))
      | e :: r3 =>
        if e = 'e' ∨ e = 'E' then
          let (eneg, r4) :=
            match r3 with
            | '+' :: r => (false, r)
            | '-' :: r => (true, r)
            | _ => (false, r3)
          let (eds, r5) := spanDigits r4
          if eds.isEmpty ∨ ¬ r5.isEmpty then none
          else
            let ex := digitsVal eds
            if eneg then some (.finite (mkRat mant (10 ^ (fl + ex))))
            else some (.finite (mkRat (mant * 10 ^ ex) (10 ^ fl)))
        else none

/-- Python `float(s)` on an already-stripped string: optional sign, then a
float body; anything else raises (here: `none`). -/
def pyFloat (s : String) : Option PyFloat :=
  match s.data with
  | '+' :: rest => pyFloatBody false rest
  | '-' :: rest => pyFloatBody true rest
  | cs => pyFloatBody false cs

/-- Function `to_float` (lines 182-189): strip, empty means `None`, else
`float(x.replace(",", "."))` with parse failure mapped to `None`. -/
def to_float (x : String) : Option PyFloat :=
  let x := pyTrim x
  if x = "" then none
  else pyFloat (commaToDot x)

/-- Try to match `ORG_ID_RE = /org/[^/]+/(\d+)` (line 54) at the current
position, returning the captured digits. -/
def orgIdAt (cs : List Char) : Option String :=
  if startsList "/org/".data cs then
    let r1 := cs.drop 5
    let (seg, r2) := r1.span (fun c => c ≠ '/')
    if seg.isEmpty then none
    else
      match r2 with
      | '/' :: r3 =>
        let ds := (r3.span Char.isDigit).1
        if ds.isEmpty then none else some (String.mk ds)
      | _ => none
  else none

/-- Search like `re.search` for `ORG_ID_RE`: the leftmost match wins. -/
def orgIdSearch : List Char → Option String
  | [] => none
  | c :: rest =>
    match orgIdAt (c :: rest) with
    | some s => some s
    | none => orgIdSearch rest

/-- From `main` lines 584-585: `org_id` is the first `ORG_ID_RE` capture in the
URL, or `"unknown"`. -/
def org_id_of (url : String) : String := (orgIdSearch url.data).getD "unknown"

/-! ## In-page extraction (`js_extract_new`, lines 347-418)

The JS function runs over all currently visible review cards.  Everything it
reads from the DOM is an input here: a `RawCard` carries the parsed
`aria-posinset`, the author link `href`, the caption / rating / date strings,
and the two `readText` results (the second is what a re-read returns after
the bounded second expansion attempt).  The expansion clicks themselves are
DOM side effects; only their counts are observable in the output. -/

/-- One visible review card as the extraction script sees it.  `pos` is
`parseInt(card.getAttribute("aria-posinset") || "0", 10)`; the value `0`
stands for a missing or unparsable attribute (every such card, like every
card the `!pos || pos <= maxPos` guard rejects, is skipped). -/
structure RawCard where
  pos : Nat
  href : String
  caption : String
  rating_raw : String
  date_iso : String
  read1 : String
  read2 : String
  clicks1 : Nat
  clicks2 : Nat
  deriving DecidableEq

/-- The JS `norm`: collapse every whitespace run to one space, then trim. -/
def collapseWs : List Char → List Char
  | [] => []
  | c :: rest =>
    let tail := collapseWs rest
    if isPySpace c then
      match tail with
      | ' ' :: _ => tail
      | _ => ' ' :: tail
    else c :: tail

/-- JS `norm(s) = (s || "").replace(/\s+/g, " ").trim()`. -/
def jsNorm (s : String) : String := pyTrim (String.mk (collapseWs s.data))

/-- Does `cs` end with `needle`? -/
def endsList (needle cs : List Char) : Bool := startsList needle.reverse cs.reverse

/-- JS `isEllipsisEnd`: trimmed text ending in `…` or in three literal dots. -/
def isEllipsisEnd (s : String) : Bool :=
  let t := pyTrim s
  endsList "…".data t.data || endsList "...".data t.data

/-- Try to match `/\/maps\/user\/([^/?#]+)/` at the current position. -/
def authorAt (cs : List Char) : Option String :=
  if startsList "/maps/user/".data cs then
    let seg := ((cs.drop 11).span (fun c => c ≠ '/' ∧ c ≠ '?' ∧ c ≠ '#')).1
    if seg.isEmpty then none else some (String.mk seg)
  else none

/-- Leftmost match for the author-id pattern. -/
def authorSearch : List Char → Option String
  | [] => none
  | c :: rest =>
    match authorAt (c :: rest) with
    | some s => some s
    | none => authorSearch rest

/-- Lines 401-403: `author_id` is the first capture of the author-link
pattern in the card's link `href`, or `""`. -/
def author_id_of_href (href : String) : String := (authorSearch href.data).getD ""

/-- One extracted item, as the JS pushes it into `items` (lines 409-413). -/
structure Item where
  pos : Nat
  author_id : String
  caption : String
  rating_raw : String
  date_iso : String
  text : String
  expandClicks : Nat
  stillEllipsis : Bool
  deriving DecidableEq

/-- Per-card body of `js_extract_new` (lines 389-413): expand and read, re-read
once if the text still looks truncated, then collect the fields. -/
def extractItem (c : RawCard) : Item :=
  let text1 := jsNorm c.read1
  let retry := isEllipsisEnd text1
  let clicks := if retry then c.clicks1 + c.clicks2 else c.clicks1
  let text := if retry then jsNorm c.read2 else text1
  { pos := c.pos
    author_id := author_id_of_href c.href
    caption := pyTrim c.caption
    rating_raw := c.rating_raw
    date_iso := c.date_iso
    text := text
    expandClicks := clicks
    stillEllipsis := isEllipsisEnd text }

/-- Result of `js_extract_new`: the surviving items in visual order and the
highest position seen (initialised to the incoming watermark). -/
structure ExtractRes where
  items : List Item
  maxSeen : Nat
  deriving DecidableEq

/-- The card loop of `js_extract_new` (lines 384-414): cards with
`!pos || pos <= maxPos` are skipped before any further work on them. -/
def jsExtractGo (maxPos : Nat) : List RawCard → Nat → ExtractRes
  | [], maxSeen => ⟨[], maxSeen⟩
  | c :: rest, maxSeen =>
    if c.pos = 0 ∨ c.pos ≤ maxPos then jsExtractGo maxPos rest maxSeen
    else
      let maxSeen' := if c.pos > maxSeen then c.pos else maxSeen
      let r := jsExtractGo maxPos rest maxSeen'
      ⟨extractItem c :: r.items, r.maxSeen⟩

/-- Function `js_extract_new` (lines 347-418) as evaluated on the visible cards with
the current `max_pos_parsed`. -/
def js_extract_new (els : List RawCard) (maxPos : Nat) : ExtractRes :=
  jsExtractGo maxPos els maxPos

/-! ## Records and the per-source collection loop
(`stream_scroll_collect`, lines 312-515) -/

/-- The five-input content-derived key (line 459):
`sha1(f"{org_id}|{author_id}|{date_iso}|{rating_raw}|{text}")`. -/
def review_key (org_id author_id date_iso rating_raw text : String) : String :=
  sha1 (org_id ++ "|" ++ author_id ++ "|" ++ date_iso ++ "|" ++ rating_raw ++ "|" ++ text)

/-- Line 454: `date_iso.split("T")[0] if "T" in date_iso else date_iso`. -/
def date_ymd_of (date_iso : String) : String :=
  if date_iso.data.any (fun c => c = 'T') then String.mk (date_iso.data.takeWhile (fun c => c ≠ 'T'))
  else date_iso

/-- One persisted record: the flat field mapping serialized as one JSONL line
(lines 463-478).  Serialization itself is external; the record is modelled as
the structure that is serialized. -/
structure Row where
  review_key : String
  org_id : String
  restaurant_name : String
  author_id : String
  author_caption : String
  author_badge : String
  author_level : Option Nat
  date_iso : String
  date : String
  rating_raw : String
  rating : Option PyFloat
  text : String
  source_url : String
  scraped_at_unix : Nat
  deriving DecidableEq

/-- The per-source configuration of `stream_scroll_collect` (its parameters,
lines 312-328).  `scraped_at_unix` stands for `int(time.time())` at emission
time, constant on the time scale of one source here. -/
structure Env where
  org_id : String
  restaurant_name : String
  source_url : String
  max_rounds : Int
  no_progress_limit : Int
  max_reviews : Int
  headful : Bool
  scraped_at_unix : Nat

/-- The mutable state of one `stream_scroll_collect` call (lines 340-342)
together with the shared dedup set and the append-only output sink, which the
call reads and extends.  The two debug-only counters
(`expanded_clicks_total`, `still_ellipsis_new_cards`) feed `print` only and
are omitted. -/
structure LoopState where
  max_pos_parsed : Nat
  no_progress : Nat
  total_written : Nat
  seen_keys : List String
  out : List Row
  deriving DecidableEq

/-- Python line 443: the stripped final text of an item. -/
def strippedText (it : Item) : String := pyTrim it.text

/-- The key derived for one item in the emit loop (line 459). -/
def itemKey (env : Env) (it : Item) : String :=
  review_key env.org_id it.author_id it.date_iso it.rating_raw (strippedText it)

/-- The record built for one item (lines 451-478). -/
def mkRow (env : Env) (it : Item) : Row :=
  let text := strippedText it
  let date_iso := it.date_iso
  let cbl := parse_caption it.caption
  { review_key := itemKey env it
    org_id := env.org_id
    restaurant_name := env.restaurant_name
    author_id := it.author_id
    author_caption := cbl.1
    author_badge := cbl.2.1
    author_level := cbl.2.2
    date_iso := date_iso
    date := date_ymd_of date_iso
    rating_raw := it.rating_raw
    rating := to_float it.rating_raw
    text := text
    source_url := env.source_url
    scraped_at_unix := env.scraped_at_unix }

/-- Lines 480-483: append the record, count it, and mark its key seen. -/
def writeRow (env : Env) (it : Item) (st : LoopState) : LoopState :=
  { st with
    out := st.out ++ [mkRow env it]
    total_written := st.total_written + 1
    seen_keys := itemKey env it :: st.seen_keys }

/-- How the per-round emit loop (lines 441-489) ended: `capReturn` is the
early `return total_written` at the cap (lines 485-489), `finished` is normal
fall-through to the watermark update. -/
inductive EmitStep where
  | capReturn (st : LoopState)
  | finished (st : LoopState)
  deriving DecidableEq

/-- The state carried by either emit outcome. -/
def EmitStep.state : EmitStep → LoopState
  | .capReturn st => st
  | .finished st => st

/-- Is the outcome the early cap return? -/
def EmitStep.isCap : EmitStep → Bool
  | .capReturn _ => true
  | .finished _ => false

/-- The emit loop `for it in items:` (lines 442-489): skip empty text, skip
keys already seen, otherwise write / count / mark seen, and return
immediately once `max_reviews > 0 and total_written >= max_reviews`. -/
def emitItems (env : Env) : List Item → LoopState → EmitStep
  | [], st => .finished st
  | it :: rest, st =>
    if strippedText it = "" then emitItems env rest st
    else if itemKey env it ∈ st.seen_keys then emitItems env rest st
    else
      let st' := writeRow env it st
      if env.max_reviews > 0 ∧ (st'.total_written : Int) ≥ env.max_reviews then .capReturn st'
      else emitItems env rest st'

/-- What one round observes from the surface: the page state at the
round-start block check, the operator poll script used if that check reports
blocked, and the result of `eval_on_selector_all` (`none` when it raises
`PwTimeoutError`). -/
structure Round where
  page : PageState
  script : List (String × PageState)
  evalRes : Option (List RawCard)

/-- How one round of the `for round_idx in range(max_rounds)` loop ended:
`ret` is `return total_written` (operator quit / skip, or the cap), `brk` is
`break` (the stall limit), `next` continues with the following round, and
`hang` is an operator poll that never resolves (the real loop blocks forever
in `input()`). -/
inductive StepRes where
  | hang (st : LoopState)
  | ret (st : LoopState)
  | brk (st : LoopState)
  | next (st : LoopState)
  deriving DecidableEq

/-- The state carried by any round outcome. -/
def StepRes.state : StepRes → LoopState
  | .hang st => st
  | .ret st => st
  | .brk st => st
  | .next st => st

/-- Did the round end in `return`? -/
def StepRes.isRet : StepRes → Bool
  | .ret _ => true
  | _ => false

/-- Did the round end in the unresolved-operator state? -/
def StepRes.isHang : StepRes → Bool
  | .hang _ => true
  | _ => false

/-- The round body after the block check (lines 426-511): extraction with the
timeout fallback, the emit loop, the watermark / stall update
(`progressed = max_seen > max_pos_parsed`), and the stall-limit `break`. -/
def roundBody (env : Env) (r : Round) (st : LoopState) : StepRes :=
  match r.evalRes with
  | none =>
    let st' := { st with no_progress := st.no_progress + 1 }
    if (st'.no_progress : Int) ≥ env.no_progress_limit then .brk st' else .next st'
  | some cards =>
    let er := js_extract_new cards st.max_pos_parsed
    match emitItems env er.items st with
    | .capReturn st' => .ret st'
    | .finished st' =>
      let st'' :=
        if er.maxSeen > st'.max_pos_parsed then
          { st' with max_pos_parsed := er.maxSeen, no_progress := 0 }
        else { st' with no_progress := st'.no_progress + 1 }
      if (st''.no_progress : Int) ≥ env.no_progress_limit then .brk st'' else .next st''

/-- One full round (lines 420-511): the block check and recovery first
(`quit` and `skip` both just `return total_written`, line 424), then the
round body. -/
def roundStep (env : Env) (r : Round) (st : LoopState) : StepRes :=
  if detect_captcha_or_block r.page then
    match handle_captcha_interactive env.headful r.script with
    | none => .hang st
    | some a => if a = "quit" ∨ a = "skip" then .ret st else roundBody env r st
  else roundBody env r st

/-- How a whole `stream_scroll_collect` call ended: normally (`done`, whether
by `return`, `break`, or round-budget exhaustion) or stuck in an unresolved
operator poll (`hung`).  Both carry the state reached, whose sink content is
already flushed and durable. -/
inductive CollectRes where
  | hung (st : LoopState)
  | done (st : LoopState)
  deriving DecidableEq

/-- The state carried by either collection outcome. -/
def CollectRes.state : CollectRes → LoopState
  | .hung st => st
  | .done st => st

/-- The round loop `for round_idx in range(max_rounds)` (line 420): `fuel`
counts the remaining rounds of the budget, `idx` is `round_idx`, and the
external observations of round `i` are `rounds i`. -/
def collectLoop (env : Env) (rounds : Nat → Round) : Nat → Nat → LoopState → CollectRes
  | 0, _, st => .done st
  | fuel + 1, idx, st =>
    match roundStep env (rounds idx) st with
    | .hang st' => .hung st'
    | .ret st' => .done st'
    | .brk st' => .done st'
    | .next st' => collectLoop env rounds fuel (idx + 1) st'

/-- Function `stream_scroll_collect` (lines 312-515) for one source: fresh watermark,
stall counter and per-source count, the shared seen-key set and sink carried
in.  Its Python return value is `(... ).state.total_written`. -/
def stream_scroll_collect (env : Env) (rounds : Nat → Round) (seen : List String)
    (out : List Row) : CollectRes :=
  collectLoop env rounds env.max_rounds.toNat 0
    { max_pos_parsed := 0, no_progress := 0, total_written := 0, seen_keys := seen, out := out }

/-! ## CLI defaults and the per-URL driver (`build_argparser` lines 518-531,
`main` lines 534-629) -/

/-- The collection-relevant CLI arguments.  The timing knobs
(`--scroll-delay-ms`, `--scroll-step-ratio`, `--page-delay-sec`) and the
resource-blocking switch only shape surface interaction and are dropped. -/
structure Args where
  headful : Bool
  debug : Bool
  max_scroll_rounds : Int
  no_progress_limit : Int
  max_reviews : Int

/-- The `build_argparser` defaults (lines 518-531): headless, 20000 rounds,
stall limit 200, `--max-reviews 0` (documented as `0 = unlimited`). -/
def argDefaults : Args :=
  { headful := false, debug := false, max_scroll_rounds := 20000,
    no_progress_limit := 200, max_reviews := 0 }

/-- Everything one iteration of `main`'s URL loop observes from the surface:
navigation result, the page state at the post-navigation block check, the
operator script for that check, selector discovery, the page title, the
timeout flag of `wait_reviews_ready`'s critical wait, the clock, and the
per-round observations for `stream_scroll_collect`. -/
structure UrlSession where
  url : String
  gotoTimeout : Bool
  navPage : PageState
  navScript : List (String × PageState)
  selectorsFound : Bool
  restaurant_name : String
  readyTimeout : Bool
  scrapeTime : Nat
  rounds : Nat → Round

/-- How one URL iteration ended, as `main` reports it (lines 563-616). -/
inductive UrlOutcome where
  | timedOut
  | hungNav
  | quitNav
  | skipNav
  | noSelectors
  | hungCollect
  | collected (n : Nat)
  deriving DecidableEq

/-- The run-wide state threaded through `main`'s URL loop: the dedup set
loaded at startup and extended per emission, and the records appended to the
sink during this run. -/
structure RunState where
  seen_keys : List String
  out : List Row
  deriving DecidableEq

/-- The per-source `Env` that `main` assembles for one URL (lines 593-609). -/
def envOf (args : Args) (u : UrlSession) : Env :=
  { org_id := org_id_of u.url
    restaurant_name := u.restaurant_name
    source_url := u.url
    max_rounds := args.max_scroll_rounds
    no_progress_limit := args.no_progress_limit
    max_reviews := args.max_reviews
    headful := args.headful
    scraped_at_unix := u.scrapeTime }

/-- The tail of one URL iteration after the block check (lines 572-611):
selector discovery, `org_id`, the critical list-ready wait, then the
collection loop. -/
def processUrlBody (args : Args) (s : RunState) (u : UrlSession) : RunState × UrlOutcome :=
  if !u.selectorsFound then (s, .noSelectors)
  else if u.readyTimeout then (s, .timedOut)
  else
    match stream_scroll_collect (envOf args u) u.rounds s.seen_keys s.out with
    | .hung st => (⟨st.seen_keys, st.out⟩, .hungCollect)
    | .done st => (⟨st.seen_keys, st.out⟩, .collected st.total_written)

/-- One URL iteration (lines 556-611): navigation (whose timeout abandons the
source), then the block check and recovery — `quit` breaks the whole loop,
`skip` moves to the next URL — then the body. -/
def processUrl (args : Args) (s : RunState) (u : UrlSession) : RunState × UrlOutcome :=
  if u.gotoTimeout then (s, .timedOut)
  else if detect_captcha_or_block u.navPage then
    match handle_captcha_interactive args.headful u.navScript with
    | none => (s, .hungNav)
    | some a =>
      if a = "quit" then (s, .quitNav)
      else if a = "skip" then (s, .skipNav)
      else processUrlBody args s u
  else processUrlBody args s u

/-- The `main` URL loop (lines 556-619): sources strictly in sequence, stopping
only when a navigation-time `quit` breaks the loop (or when an operator poll
never resolves, where the real process blocks forever). -/
def runUrls (args : Args) : List UrlSession → RunState → RunState × List UrlOutcome
  | [], s => (s, [])
  | u :: rest, s =>
    let so := processUrl args s u
    match so.2 with
    | .quitNav => (so.1, [.quitNav])
    | .hungNav => (so.1, [.hungNav])
    | .hungCollect => (so.1, [.hungCollect])
    | oc =>
      let rest' := runUrls args rest so.1
      (rest'.1, oc :: rest'.2)


/-! ## Concrete instances used by the witness theorems

Each claim's witness evaluates the embedding on one explicit input; the
inputs are small but exercise the real pipeline (including key hashing). -/

/-- A benign page state: an ordinary listing URL, body text readable. -/
def c1Page : PageState := ⟨"https://yandex.ru/maps/org/cafe/101/reviews/", some "Отзывы"⟩

/-- One visible review card. -/
def c1Card : RawCard :=
  { pos := 1, href := "https://yandex.ru/maps/user/abc12/", caption := "Знаток города 5 уровня",
    rating_raw := "5", date_iso := "2024-03-04T10:00:00", read1 := "Очень  вкусно", read2 := "",
    clicks1 := 0, clicks2 := 0 }

/-- A one-round, one-source run configuration. -/
def c1Args : Args :=
  { headful := false, debug := false, max_scroll_rounds := 1, no_progress_limit := 1,
    max_reviews := 0 }

/-- A source session showing one card in its single round. -/
def c1Session : UrlSession :=
  { url := "https://yandex.ru/maps/org/cafe/101/reviews/", gotoTimeout := false,
    navPage := c1Page, navScript := [], selectorsFound := true, restaurant_name := "Кафе",
    readyTimeout := false, scrapeTime := 5, rounds := fun _ => ⟨c1Page, [], some [c1Card]⟩ }

/-- The `Env` that `processUrlBody` builds for `c1Session` under `c1Args`. -/
def c1Env : Env := envOf c1Args c1Session

/-- The single record that run appends. -/
def c1Row : Row := mkRow c1Env (extractItem c1Card)

/-- Same shape as `c1Page`, owned by the C2 witness. -/
def c2Page : PageState := ⟨"https://yandex.ru/maps/org/bar/202/reviews/", some "Отзывы"⟩

/-- One visible review card for the C2 witness. -/
def c2Card : RawCard :=
  { pos := 1, href := "https://yandex.ru/maps/user/xyz9/", caption := "",
    rating_raw := "4", date_iso := "2023-12-31T09:30:00", read1 := "Неплохо", read2 := "",
    clicks1 := 0, clicks2 := 0 }

/-- Run configuration for the C2 witness. -/
def c2Args : Args :=
  { headful := false, debug := false, max_scroll_rounds := 2, no_progress_limit := 1,
    max_reviews := 0 }

/-- A source session showing the same card in both rounds (an overlap). -/
def c2Session : UrlSession :=
  { url := "https://yandex.ru/maps/org/bar/202/reviews/", gotoTimeout := false,
    navPage := c2Page, navScript := [], selectorsFound := true, restaurant_name := "Бар",
    readyTimeout := false, scrapeTime := 9, rounds := fun _ => ⟨c2Page, [], some [c2Card]⟩ }

/-- The `Env` that `processUrlBody` builds for `c2Session` under `c2Args`. -/
def c2Env : Env := envOf c2Args c2Session

/-- The key of the one record the C2 witness run emits. -/
def c2Key : String := itemKey c2Env (extractItem c2Card)

/-- Any environment; the C3 witness uses a stall limit of 5. -/
def c3Env : Env :=
  { org_id := "303", restaurant_name := "R", source_url := "u", max_rounds := 10,
    no_progress_limit := 5, max_reviews := 0, headful := false, scraped_at_unix := 0 }

/-- A round with no block and no visible cards. -/
def c3Round : Round := ⟨⟨"https://yandex.ru/maps/org/q/303/", some ""⟩, [], some []⟩

/-- The state entering the C3 witness round. -/
def c3St : LoopState :=
  { max_pos_parsed := 0, no_progress := 0, total_written := 0, seen_keys := [], out := [] }

/-- The state the C3 witness round produces (one stalled round). -/
def c3St' : LoopState :=
  { max_pos_parsed := 0, no_progress := 1, total_written := 0, seen_keys := [], out := [] }

/-- A card above the watermark for the C3 skip conjunct. -/
def c3Card : RawCard :=
  { pos := 3, href := "", caption := "", rating_raw := "5", date_iso := "2024-01-01",
    read1 := "Текст", read2 := "", clicks1 := 0, clicks2 := 0 }

/-- A page whose address is ordinary and whose body read raised. -/
def c7Page : PageState := ⟨"https://yandex.ru/maps/org/bar/55/", none⟩

/-- Transfer a predicate along equal sink / dedup / count components. -/
def ObsEq (st st' : LoopState) : Prop :=
  st.out = st'.out ∧ st.seen_keys = st'.seen_keys ∧ st.total_written = st'.total_written

/-- A predicate that only depends on the observable components. -/
def ObsPred (P : LoopState → Prop) : Prop :=
  ∀ st st', ObsEq st st' → P st → P st'

/-- A blocked page: challenge path in the address, body read failing. -/
def c4Blocked : PageState := ⟨"https://yandex.ru/showcaptcha?p=1", none⟩

/-- A benign page for the C4 run. -/
def c4Clean : PageState := ⟨"https://yandex.ru/maps/org/one/111/reviews/", some "Отзывы"⟩

/-- An interactive (headful) run over two URLs with a stall limit of 1. -/
def c4Args : Args :=
  { headful := true, debug := false, max_scroll_rounds := 3, no_progress_limit := 1,
    max_reviews := 0 }

/-- First source: every collection round is blocked and the operator answers
`q` (quit) at the first poll. -/
def c4S1 : UrlSession :=
  { url := "https://yandex.ru/maps/org/one/111/reviews/", gotoTimeout := false,
    navPage := c4Clean, navScript := [], selectorsFound := true, restaurant_name := "Один",
    readyTimeout := false, scrapeTime := 0,
    rounds := fun _ => ⟨c4Blocked, [("q", c4Blocked)], some []⟩ }

/-- Second source: unblocked, empty, stalls out immediately. -/
def c4S2 : UrlSession :=
  { url := "https://yandex.ru/maps/org/two/222/reviews/", gotoTimeout := false,
    navPage := ⟨"https://yandex.ru/maps/org/two/222/reviews/", some "Отзывы"⟩,
    navScript := [], selectorsFound := true, restaurant_name := "Два",
    readyTimeout := false, scrapeTime := 0,
    rounds := fun _ => ⟨⟨"https://yandex.ru/maps/org/two/222/reviews/", some "Отзывы"⟩, [], some []⟩ }

/-- Variant of the first source blocked at navigation time, operator answers `q`. -/
def c4S3 : UrlSession :=
  { url := "https://yandex.ru/maps/org/one/111/reviews/", gotoTimeout := false,
    navPage := c4Blocked, navScript := [("q", c4Blocked)], selectorsFound := true,
    restaurant_name := "Один", readyTimeout := false, scrapeTime := 0,
    rounds := fun _ => ⟨c4Clean, [], some []⟩ }

/-- Environment with a cap of one for the C5 witness. -/
def c5Env : Env :=
  { org_id := "505", restaurant_name := "R", source_url := "u", max_rounds := 5,
    no_progress_limit := 3, max_reviews := 1, headful := false, scraped_at_unix := 0 }

/-- An item with non-empty text for the C5 witness. -/
def c5It : Item :=
  { pos := 1, author_id := "a5", caption := "", rating_raw := "5",
    date_iso := "2024-02-02T00:00:00", text := "Вкусно", expandClicks := 0,
    stillEllipsis := false }

/-- The fresh per-source state for the C5 witness. -/
def c5St : LoopState :=
  { max_pos_parsed := 0, no_progress := 0, total_written := 0, seen_keys := [], out := [] }

/-- Environment with a stall limit of one for the C6 witness. -/
def c6Env : Env :=
  { org_id := "606", restaurant_name := "R", source_url := "u", max_rounds := 4,
    no_progress_limit := 1, max_reviews := 0, headful := false, scraped_at_unix := 0 }

/-- An unblocked round showing no cards. -/
def c6Round : Round := ⟨⟨"https://yandex.ru/maps/org/six/606/", some ""⟩, [], some []⟩

/-- The fresh per-source state for the C6 witness. -/
def c6St : LoopState :=
  { max_pos_parsed := 0, no_progress := 0, total_written := 0, seen_keys := [], out := [] }

/-- The state after the C6 witness round: one more stall. -/
def c6St' : LoopState :=
  { max_pos_parsed := 0, no_progress := 1, total_written := 0, seen_keys := [], out := [] }

/-- A headless run whose source emits one record and is then blocked. -/
def c8Args : Args :=
  { headful := false, debug := false, max_scroll_rounds := 3, no_progress_limit := 5,
    max_reviews := 0 }

/-- The blocked page seen from round 1 on in the C8 run. -/
def c8Blocked : PageState := ⟨"https://yandex.ru/showcaptcha?p=8", none⟩

/-- The benign page of the C8 run. -/
def c8Page : PageState := ⟨"https://yandex.ru/maps/org/eight/888/reviews/", some "Отзывы"⟩

/-- The one card visible in round 0 of the C8 run. -/
def c8Card : RawCard :=
  { pos := 1, href := "https://yandex.ru/maps/user/u8/", caption := "",
    rating_raw := "5", date_iso := "2024-08-08T08:00:00", read1 := "Норм", read2 := "",
    clicks1 := 0, clicks2 := 0 }

/-- A source that shows `c8Card` in round 0 and is blocked from round 1 on. -/
def c8Session : UrlSession :=
  { url := "https://yandex.ru/maps/org/eight/888/reviews/", gotoTimeout := false,
    navPage := c8Page, navScript := [], selectorsFound := true, restaurant_name := "Восемь",
    readyTimeout := false, scrapeTime := 0,
    rounds := fun i => if i = 0 then ⟨c8Page, [], some [c8Card]⟩ else ⟨c8Blocked, [], some []⟩ }

/-- A headless run configuration for the amended C8 statement's witness. -/
def c8wArgs : Args :=
  { headful := false, debug := false, max_scroll_rounds := 2, no_progress_limit := 2,
    max_reviews := 0 }

/-- A source blocked already at the navigation-time check. -/
def c8wSession : UrlSession :=
  { url := "https://yandex.ru/maps/org/nine/999/reviews/", gotoTimeout := false,
    navPage := c8Blocked, navScript := [], selectorsFound := true, restaurant_name := "Девять",
    readyTimeout := false, scrapeTime := 0,
    rounds := fun _ => ⟨c8Blocked, [], some []⟩ }

/-- Environment with an unparsable-rating item for the C9 witness. -/
def c9Env : Env :=
  { org_id := "909", restaurant_name := "R", source_url := "u", max_rounds := 5,
    no_progress_limit := 5, max_reviews := 0, headful := false, scraped_at_unix := 0 }

/-- An item whose raw rating token is not a number. -/
def c9It : Item :=
  { pos := 1, author_id := "u9", caption := "", rating_raw := "пять",
    date_iso := "2024-05-06T01:02:03", text := "Сойдёт", expandClicks := 0,
    stillEllipsis := false }

/-- The fresh per-source state for the C9 witness. -/
def c9St : LoopState :=
  { max_pos_parsed := 0, no_progress := 0, total_written := 0, seen_keys := [], out := [] }

/-- The default (cap-zero) environment for the C10 witness. -/
def c10Env : Env :=
  { org_id := "100", restaurant_name := "R", source_url := "u", max_rounds := 5,
    no_progress_limit := 5, max_reviews := 0, headful := false, scraped_at_unix := 0 }

/-- An emittable item for the C10 witness. -/
def c10It : Item :=
  { pos := 8, author_id := "ua", caption := "", rating_raw := "3",
    date_iso := "2024-10-10T10:10:10", text := "Да", expandClicks := 0,
    stillEllipsis := false }

/-- A state that has already written seven records. -/
def c10St : LoopState :=
  { max_pos_parsed := 7, no_progress := 0, total_written := 7, seen_keys := [], out := [] }

/-- An unblocked, empty round for the C10 witness. -/
def c10Round : Round := ⟨⟨"https://yandex.ru/maps/org/ten/1010/", some ""⟩, [], some []⟩

/-! ## Helper lemmas -/

/-- A predicate preserved by a guarded `writeRow` is preserved by the whole
emit loop. -/
theorem emit_preserves (P : LoopState → Prop)
    (hw : ∀ env it st, itemKey env it ∉ st.seen_keys → P st → P (writeRow env it st)) :
    ∀ (env : Env) (items : List Item) (st : LoopState), P st → P (emitItems env items st).state := by
  intro env items
  induction items with
  | nil => intro st h; simpa [emitItems, EmitStep.state] using h
  | cons it rest ih =>
    intro st h
    simp only [emitItems]
    split_ifs with h1 h2 h3
    · exact ih st h
    · exact ih st h
    · simpa [EmitStep.state] using hw env it st h2 h
    · exact ih _ (hw env it st h2 h)

/-- A guarded-write-stable observable predicate is preserved by one round. -/
theorem round_preserves (P : LoopState → Prop) (hobs : ObsPred P)
    (hw : ∀ env it st, itemKey env it ∉ st.seen_keys → P st → P (writeRow env it st)) :
    ∀ (env : Env) (r : Round) (st : LoopState), P st → P (roundStep env r st).state := by
  intro env r st h
  have hbody : P (roundBody env r st).state := by
    unfold roundBody
    match hr : r.evalRes with
    | none =>
      simp only []
      split_ifs <;> exact hobs st _ ⟨rfl, rfl, rfl⟩ h
    | some cards =>
      simp only []
      have hemit := emit_preserves P hw env (js_extract_new cards st.max_pos_parsed).items st h
      match he : emitItems env (js_extract_new cards st.max_pos_parsed).items st with
      | .capReturn st1 =>
        rw [he] at hemit
        simpa [StepRes.state, EmitStep.state] using hemit
      | .finished st1 =>
        rw [he] at hemit
        have h1 : P st1 := by simpa [EmitStep.state] using hemit
        simp only []
        split_ifs <;> exact hobs st1 _ ⟨rfl, rfl, rfl⟩ h1
  unfold roundStep
  split_ifs with hdet
  · match handle_captcha_interactive env.headful r.script with
    | none => simpa [StepRes.state] using h
    | some a =>
      simp only []
      split_ifs
      · simpa [StepRes.state] using h
      · exact hbody
  · exact hbody

/-- A guarded-write-stable observable predicate is preserved by the round loop. -/
theorem collect_preserves (P : LoopState → Prop) (hobs : ObsPred P)
    (hw : ∀ env it st, itemKey env it ∉ st.seen_keys → P st → P (writeRow env it st)) :
    ∀ (env : Env) (rounds : Nat → Round) (fuel idx : Nat) (st : LoopState),
      P st → P (collectLoop env rounds fuel idx st).state := by
  intro env rounds fuel
  induction fuel with
  | zero => intro idx st h; simpa [collectLoop, CollectRes.state] using h
  | succ n ih =>
    intro idx st h
    have hstep := round_preserves P hobs hw env (rounds idx) st h
    unfold collectLoop
    match hr : roundStep env (rounds idx) st with
    | .hang st1 =>
      rw [hr] at hstep
      simpa [CollectRes.state, StepRes.state] using hstep
    | .ret st1 =>
      rw [hr] at hstep
      simpa [CollectRes.state, StepRes.state] using hstep
    | .brk st1 =>
      rw [hr] at hstep
      simpa [CollectRes.state, StepRes.state] using hstep
    | .next st1 =>
      rw [hr] at hstep
      have h1 : P st1 := by simpa [StepRes.state] using hstep
      exact ih (idx + 1) st1 h1

/-- Lemma: `processUrl` preserves any run-state property stable under one guarded write. -/
theorem processUrl_preserves (Q : RunState → Prop)
    (hw : ∀ (env : Env) (it : Item) (st : LoopState), itemKey env it ∉ st.seen_keys →
      Q ⟨st.seen_keys, st.out⟩ → Q ⟨itemKey env it :: st.seen_keys, st.out ++ [mkRow env it]⟩) :
    ∀ (args : Args) (s : RunState) (u : UrlSession), Q s → Q (processUrl args s u).1 := by
  intro args s u h
  have hobs : ObsPred (fun st => Q ⟨st.seen_keys, st.out⟩) := by
    intro st st' hEq hq
    rcases hEq with ⟨h1, h2, _⟩
    rw [← h1, ← h2]
    exact hq
  have hw' : ∀ (env : Env) (it : Item) (st : LoopState), itemKey env it ∉ st.seen_keys →
      Q ⟨st.seen_keys, st.out⟩ → Q ⟨(writeRow env it st).seen_keys, (writeRow env it st).out⟩ := by
    intro env it st hmem hq
    simpa [writeRow] using hw env it st hmem hq
  have hbody : Q (processUrlBody args s u).1 := by
    unfold processUrlBody
    split_ifs with h1 h2
    · exact h
    · exact h
    · have hc := collect_preserves (fun st => Q ⟨st.seen_keys, st.out⟩) hobs hw'
        (envOf args u) u.rounds (envOf args u).max_rounds.toNat 0
        { max_pos_parsed := 0, no_progress := 0, total_written := 0,
          seen_keys := s.seen_keys, out := s.out } h
      unfold stream_scroll_collect
      match hcol : collectLoop (envOf args u) u.rounds (envOf args u).max_rounds.toNat 0
          { max_pos_parsed := 0, no_progress := 0, total_written := 0,
            seen_keys := s.seen_keys, out := s.out } with
      | .hung st1 =>
        rw [hcol] at hc
        simpa [CollectRes.state] using hc
      | .done st1 =>
        rw [hcol] at hc
        simpa [CollectRes.state] using hc
  unfold processUrl
  split_ifs with h1 h2
  · exact h
  · match handle_captcha_interactive args.headful u.navScript with
    | none => exact h
    | some a =>
      simp only []
      split_ifs
      · exact h
      · exact h
      · exact hbody
  · exact hbody

/-- Lemma: `runUrls` preserves any run-state property stable under one guarded write. -/
theorem runUrls_preserves (Q : RunState → Prop)
    (hw : ∀ (env : Env) (it : Item) (st : LoopState), itemKey env it ∉ st.seen_keys →
      Q ⟨st.seen_keys, st.out⟩ → Q ⟨itemKey env it :: st.seen_keys, st.out ++ [mkRow env it]⟩) :
    ∀ (args : Args) (us : List UrlSession) (s : RunState), Q s → Q (runUrls args us s).1 := by
  intro args us
  induction us with
  | nil => intro s h; simpa [runUrls] using h
  | cons u rest ih =>
    intro s h
    have h1 : Q (processUrl args s u).1 := processUrl_preserves Q hw args s u h
    simp only [runUrls]
    cases hoc : (processUrl args s u).2 with
    | quitNav => simp only [hoc]; exact h1
    | hungNav => simp only [hoc]; exact h1
    | hungCollect => simp only [hoc]; exact h1
    | timedOut => simp only [hoc]; exact ih _ h1
    | skipNav => simp only [hoc]; exact ih _ h1
    | noSelectors => simp only [hoc]; exact ih _ h1
    | collected n => simp only [hoc]; exact ih _ h1

/-- The emit loop touches neither the watermark nor the stall counter. -/
theorem emit_counters : ∀ (env : Env) (items : List Item) (st : LoopState),
    (emitItems env items st).state.max_pos_parsed = st.max_pos_parsed ∧
    (emitItems env items st).state.no_progress = st.no_progress := by
  intro env items
  induction items with
  | nil => intro st; simp [emitItems, EmitStep.state]
  | cons it rest ih =>
    intro st
    simp only [emitItems]
    split_ifs with h1 h2 h3
    · exact ih st
    · exact ih st
    · simp [EmitStep.state, writeRow]
    · simpa [writeRow] using ih (writeRow env it st)

/-- The per-card guard of the extraction script admits only positions
strictly above the incoming watermark. -/
theorem jsGo_items_pos (maxPos : Nat) : ∀ (cards : List RawCard) (maxSeen : Nat) (it : Item),
    it ∈ (jsExtractGo maxPos cards maxSeen).items → maxPos < it.pos := by
  intro cards
  induction cards with
  | nil => intro maxSeen it h; simp [jsExtractGo] at h
  | cons c rest ih =>
    intro maxSeen it h
    by_cases hc : c.pos = 0 ∨ c.pos ≤ maxPos
    · rw [jsExtractGo, if_pos hc] at h
      exact ih _ it h
    · rw [jsExtractGo, if_neg hc] at h
      push_neg at hc
      rcases List.mem_cons.mp h with h | h
      · simp [h, extractItem]; omega
      · exact ih _ it h

/-- Every item returned by `js_extract_new` sits strictly above the watermark
it was called with. -/
theorem js_items_pos (cards : List RawCard) (maxPos : Nat) (it : Item)
    (h : it ∈ (js_extract_new cards maxPos).items) : maxPos < it.pos :=
  jsGo_items_pos maxPos cards maxPos it h

/-- The `maxSeen` value never decreases along the extraction loop. -/
theorem jsGo_maxSeen_ge (maxPos : Nat) : ∀ (cards : List RawCard) (maxSeen : Nat),
    maxSeen ≤ (jsExtractGo maxPos cards maxSeen).maxSeen := by
  intro cards
  induction cards with
  | nil => intro maxSeen; simp [jsExtractGo]
  | cons c rest ih =>
    intro maxSeen
    by_cases hc : c.pos = 0 ∨ c.pos ≤ maxPos
    · rw [jsExtractGo, if_pos hc]; exact ih maxSeen
    · rw [jsExtractGo, if_neg hc]
      simp only []
      refine le_trans ?_ (ih (if c.pos > maxSeen then c.pos else maxSeen))
      split_ifs with h
      · omega
      · exact le_rfl

/-- One round never lowers the watermark, whatever its outcome. -/
theorem roundStep_wm (env : Env) (r : Round) (st : LoopState) :
    st.max_pos_parsed ≤ (roundStep env r st).state.max_pos_parsed := by
  have hbody : st.max_pos_parsed ≤ (roundBody env r st).state.max_pos_parsed := by
    unfold roundBody
    match hr : r.evalRes with
    | none =>
      simp only []
      split_ifs <;> simp [StepRes.state]
    | some cards =>
      simp only []
      match he : emitItems env (js_extract_new cards st.max_pos_parsed).items st with
      | .capReturn st1 =>
        have hwm := (emit_counters env (js_extract_new cards st.max_pos_parsed).items st).1
        rw [he] at hwm
        simp only [StepRes.state]
        simp [EmitStep.state] at hwm
        omega
      | .finished st1 =>
        have hwm := (emit_counters env (js_extract_new cards st.max_pos_parsed).items st).1
        rw [he] at hwm
        simp [EmitStep.state] at hwm
        simp only []
        split_ifs with h1 h2 h3 <;> simp [StepRes.state] <;> omega
  unfold roundStep
  split_ifs with hdet
  · match handle_captcha_interactive env.headful r.script with
    | none => simp [StepRes.state]
    | some a =>
      simp only []
      split_ifs
      · simp [StepRes.state]
      · exact hbody
  · exact hbody

/-- With a positive cap, the emit loop keeps the count strictly below the cap
on normal fall-through and hits the cap exactly on the early return. -/
theorem emit_cap_bound (env : Env) (hcap : 0 < env.max_reviews) :
    ∀ (items : List Item) (st : LoopState), (st.total_written : Int) < env.max_reviews →
      (∀ st', emitItems env items st = .finished st' → (st'.total_written : Int) < env.max_reviews) ∧
      (∀ st', emitItems env items st = .capReturn st' → (st'.total_written : Int) = env.max_reviews) := by
  intro items
  induction items with
  | nil =>
    intro st h
    constructor
    · intro st' he
      rw [emitItems] at he
      cases he
      exact h
    · intro st' he
      rw [emitItems] at he
      cases he
  | cons it rest ih =>
    intro st h
    by_cases h1 : strippedText it = ""
    · constructor
      · intro st' he; rw [emitItems, if_pos h1] at he; exact ((ih st h).1 st' he)
      · intro st' he; rw [emitItems, if_pos h1] at he; exact ((ih st h).2 st' he)
    · by_cases h2 : itemKey env it ∈ st.seen_keys
      · constructor
        · intro st' he; rw [emitItems, if_neg h1, if_pos h2] at he; exact ((ih st h).1 st' he)
        · intro st' he; rw [emitItems, if_neg h1, if_pos h2] at he; exact ((ih st h).2 st' he)
      · have htot : ((writeRow env it st).total_written : Int) = (st.total_written : Int) + 1 := by
          simp [writeRow]
        by_cases h3 : env.max_reviews > 0 ∧ ((writeRow env it st).total_written : Int) ≥ env.max_reviews
        · constructor
          · intro st' he
            rw [emitItems, if_neg h1, if_neg h2] at he
            simp only [if_pos h3] at he
            cases he
          · intro st' he
            rw [emitItems, if_neg h1, if_neg h2] at he
            simp only [if_pos h3] at he
            cases he
            omega
        · have hlt : ((writeRow env it st).total_written : Int) < env.max_reviews := by
            rcases not_and_or.mp h3 with hbad | hge
            · exact absurd hcap hbad
            · omega
          constructor
          · intro st' he
            rw [emitItems, if_neg h1, if_neg h2] at he
            simp only [if_neg h3] at he
            exact ((ih _ hlt).1 st' he)
          · intro st' he
            rw [emitItems, if_neg h1, if_neg h2] at he
            simp only [if_neg h3] at he
            exact ((ih _ hlt).2 st' he)

/-- With a positive cap, one round keeps the count at most the cap, and
strictly below it whenever the loop continues. -/
theorem round_cap_bound (env : Env) (hcap : 0 < env.max_reviews) (r : Round) (st : LoopState)
    (h : (st.total_written : Int) < env.max_reviews) :
    ((roundStep env r st).state.total_written : Int) ≤ env.max_reviews ∧
    (∀ st', roundStep env r st = .next st' → (st'.total_written : Int) < env.max_reviews) := by
  have hbody : ((roundBody env r st).state.total_written : Int) ≤ env.max_reviews ∧
      (∀ st', roundBody env r st = .next st' → (st'.total_written : Int) < env.max_reviews) := by
    unfold roundBody
    match hr : r.evalRes with
    | none =>
      simp only []
      constructor
      · split_ifs <;> simp [StepRes.state] <;> omega
      · intro st' he
        split_ifs at he
        cases he
        simp only []
        omega
    | some cards =>
      simp only []
      match he : emitItems env (js_extract_new cards st.max_pos_parsed).items st with
      | .capReturn st1 =>
        have heq := (emit_cap_bound env hcap _ st h).2 st1 he
        constructor
        · simp [StepRes.state]; omega
        · intro st' hx; cases hx
      | .finished st1 =>
        have hlt := (emit_cap_bound env hcap _ st h).1 st1 he
        dsimp only []
        constructor
        · split_ifs <;> simp [StepRes.state] <;> omega
        · intro st' hx
          split_ifs at hx <;> cases hx <;> simpa using hlt
  unfold roundStep
  split_ifs with hdet
  · match handle_captcha_interactive env.headful r.script with
    | none =>
      constructor
      · simp [StepRes.state]; omega
      · intro st' hx; cases hx
    | some a =>
      simp only []
      split_ifs
      · constructor
        · simp [StepRes.state]; omega
        · intro st' hx; cases hx
      · exact hbody
  · exact hbody

/-- With a positive cap, the whole round loop never exceeds the cap. -/
theorem collect_cap_bound (env : Env) (hcap : 0 < env.max_reviews) (rounds : Nat → Round) :
    ∀ (fuel idx : Nat) (st : LoopState), (st.total_written : Int) < env.max_reviews →
      ((collectLoop env rounds fuel idx st).state.total_written : Int) ≤ env.max_reviews := by
  intro fuel
  induction fuel with
  | zero => intro idx st h; simp [collectLoop, CollectRes.state]; omega
  | succ n ih =>
    intro idx st h
    have hb := round_cap_bound env hcap (rounds idx) st h
    unfold collectLoop
    match hr : roundStep env (rounds idx) st with
    | .hang st1 =>
      have hle := hb.1; rw [hr] at hle
      simpa [CollectRes.state, StepRes.state] using hle
    | .ret st1 =>
      have hle := hb.1; rw [hr] at hle
      simpa [CollectRes.state, StepRes.state] using hle
    | .brk st1 =>
      have hle := hb.1; rw [hr] at hle
      simpa [CollectRes.state, StepRes.state] using hle
    | .next st1 =>
      exact ih (idx + 1) st1 (hb.2 st1 hr)

/-- With a non-positive cap the early cap return can never fire. -/
theorem emit_no_cap (env : Env) (hcap : env.max_reviews ≤ 0) :
    ∀ (items : List Item) (st : LoopState), (emitItems env items st).isCap = false := by
  intro items
  induction items with
  | nil => intro st; simp [emitItems, EmitStep.isCap]
  | cons it rest ih =>
    intro st
    simp only [emitItems]
    split_ifs with h1 h2 h3
    · exact ih st
    · exact ih st
    · exact absurd h3.1 (by omega)
    · exact ih _

/-- The emit loop only appends to the sink. -/
theorem emit_out_extends : ∀ (env : Env) (items : List Item) (st : LoopState),
    st.out <+: (emitItems env items st).state.out := by
  intro env items
  induction items with
  | nil => intro st; simp [emitItems, EmitStep.state]
  | cons it rest ih =>
    intro st
    simp only [emitItems]
    split_ifs with h1 h2 h3
    · exact ih st
    · exact ih st
    · simp [EmitStep.state, writeRow]
    · exact List.IsPrefix.trans (by simp [writeRow]) (ih (writeRow env it st))

/-! ## Claim theorems -/

/-- C1: the record key is a pure deterministic function of the five inputs
(source-scope `org_id`, author id, raw timestamp `date_iso`, raw rating
token, final text): identical five-tuples give identical keys, in this run or
any other, and every record the run appends carries exactly the key derived
from its own five stored fields. -/
theorem c1_key_pure :
    (∀ o a d r t o' a' d' r' t' : String, o = o' → a = a' → d = d' → r = r' → t = t' →
       review_key o a d r t = review_key o' a' d' r' t') ∧
    (∀ (args : Args) (us : List UrlSession) (seen0 : List String) (row : Row),
       row ∈ (runUrls args us ⟨seen0, []⟩).1.out →
       row.review_key = review_key row.org_id row.author_id row.date_iso row.rating_raw row.text) := by
  constructor
  · intro o a d r t o' a' d' r' t' h1 h2 h3 h4 h5
    rw [h1, h2, h3, h4, h5]
  · intro args us seen0 row hrow
    have h := runUrls_preserves
      (fun s => ∀ rw1 ∈ s.out,
        rw1.review_key = review_key rw1.org_id rw1.author_id rw1.date_iso rw1.rating_raw rw1.text)
      (by
        intro env it st hmem hq rw1 hrw
        rcases List.mem_append.mp hrw with hin | hin
        · exact hq rw1 hin
        · rcases List.mem_singleton.mp hin with rfl
          rfl)
      args us ⟨seen0, []⟩ (by intro rw1 hrw; simp at hrw)
    exact h row hrow

/-- C1 witness: the key equality at one concrete five-tuple, and the key of
the one record a concrete run emits. -/
theorem c1_key_pure_witness :
    review_key "101" "abc12" "2024-03-04T10:00:00" "5" "Очень вкусно" =
      review_key "101" "abc12" "2024-03-04T10:00:00" "5" "Очень вкусно" ∧
    c1Row.review_key = review_key c1Row.org_id c1Row.author_id c1Row.date_iso
      c1Row.rating_raw c1Row.text :=
  ⟨c1_key_pure.1 _ _ _ _ _ _ _ _ _ _ rfl rfl rfl rfl rfl,
   c1_key_pure.2 c1Args [c1Session] [] c1Row (by decide)⟩

/-- C2: within one run emission is at-most-once per key — the appended
records carry pairwise distinct keys (across rounds and across sources), and
every appended key is in the seen-key set from the moment it is written. -/
theorem c2_at_most_once_per_key :
    ∀ (args : Args) (us : List UrlSession) (seen0 : List String),
      ((runUrls args us ⟨seen0, []⟩).1.out.map Row.review_key).Nodup ∧
      (∀ k, k ∈ (runUrls args us ⟨seen0, []⟩).1.out.map Row.review_key →
         k ∈ (runUrls args us ⟨seen0, []⟩).1.seen_keys) := by
  intro args us seen0
  have h := runUrls_preserves
    (fun s => (∀ k, k ∈ s.out.map Row.review_key → k ∈ s.seen_keys) ∧
              (s.out.map Row.review_key).Nodup)
    (by
      intro env it st hmem hq
      rcases hq with ⟨hsub, hnd⟩
      have hk : (mkRow env it).review_key = itemKey env it := rfl
      have hnotin : itemKey env it ∉ st.out.map Row.review_key := fun hc => hmem (hsub _ hc)
      constructor
      · intro k hkmem
        rw [List.map_append] at hkmem
        rcases List.mem_append.mp hkmem with hin | hin
        · exact List.mem_cons_of_mem _ (hsub k hin)
        · simp only [List.map_cons, List.map_nil, List.mem_singleton, hk] at hin
          rw [hin]
          exact List.mem_cons_self _ _
      · rw [List.map_append]
        refine List.Nodup.append hnd (List.nodup_singleton _) ?_
        intro a ha hb
        simp only [List.map_cons, List.map_nil, List.mem_singleton, hk] at hb
        rw [hb] at ha
        exact hnotin ha)
    args us ⟨seen0, []⟩ (by constructor <;> simp)
  exact ⟨h.2, h.1⟩

/-- C2 witness: in a concrete run whose source shows the same card in two
rounds, the emitted key list is duplicate-free and the key is in the set. -/
theorem c2_at_most_once_per_key_witness :
    c2Key ∈ (runUrls c2Args [c2Session] ⟨[], []⟩).1.seen_keys ∧
    ((runUrls c2Args [c2Session] ⟨[], []⟩).1.out.map Row.review_key).Nodup :=
  ⟨(c2_at_most_once_per_key c2Args [c2Session] []).2 c2Key (by decide),
   (c2_at_most_once_per_key c2Args [c2Session] []).1⟩

/-- C3: within a source's session the watermark `max_pos_parsed` never
decreases across rounds, and in every round the extraction pass drops each
visible item with `position <= watermark` before any key derivation or
emission is attempted for it. -/
theorem c3_watermark_monotone_and_skip :
    ∀ (env : Env) (r : Round) (st : LoopState) (cards : List RawCard),
      (∀ st', (roundStep env r st = .hang st' ∨ roundStep env r st = .ret st' ∨
               roundStep env r st = .brk st' ∨ roundStep env r st = .next st') →
         st.max_pos_parsed ≤ st'.max_pos_parsed) ∧
      (∀ it, it ∈ (js_extract_new cards st.max_pos_parsed).items →
         st.max_pos_parsed < it.pos) := by
  intro env r st cards
  constructor
  · intro st' h
    have hm := roundStep_wm env r st
    rcases h with h | h | h | h <;> rw [h] at hm <;> simpa [StepRes.state] using hm
  · intro it h
    exact js_items_pos cards st.max_pos_parsed it h

/-- C3 witness: one concrete stalled round keeps the watermark, and a
concrete extracted card sits above the watermark. -/
theorem c3_watermark_monotone_and_skip_witness :
    c3St.max_pos_parsed ≤ c3St'.max_pos_parsed ∧
    c3St.max_pos_parsed < (extractItem c3Card).pos :=
  ⟨(c3_watermark_monotone_and_skip c3Env c3Round c3St [c3Card]).1 c3St'
     (Or.inr (Or.inr (Or.inr (by decide)))),
   (c3_watermark_monotone_and_skip c3Env c3Round c3St [c3Card]).2 (extractItem c3Card)
     (by decide)⟩

/-- C7: the block detector fails open — whenever the body-text read raises
(error or timeout) and the current address does not match the challenge-path
pattern, the detector returns `false` instead of propagating the error. -/
theorem c7_detector_fails_open :
    ∀ (p : PageState), p.bodyRead = none →
      (strContains (ruLower p.url) "showcaptcha" || strContains (ruLower p.url) "captcha") = false →
      detect_captcha_or_block p = false := by
  intro p h1 h2
  unfold detect_captcha_or_block
  simp only [h2, Bool.false_eq_true, if_false, h1]

/-- C7 witness: a concrete failed body read on an ordinary address yields
`false`. -/
theorem c7_detector_fails_open_witness : detect_captcha_or_block c7Page = false :=
  c7_detector_fails_open c7Page rfl (by decide)

/-- C5: with a positive per-source cap, the per-source count never exceeds
the cap; the moment a write reaches the cap the emit loop returns
`capReturn` at once, whatever unprocessed items remain in the round; a cap
return from an entry count below the cap carries exactly the cap; the round
turns it into `return` (`ret`), and the round loop finishes normally on it. -/
theorem c5_cap_stops_source :
    ∀ (env : Env), 0 < env.max_reviews →
      (∀ (rounds : Nat → Round) (seen : List String) (out : List Row),
         ((stream_scroll_collect env rounds seen out).state.total_written : Int) ≤ env.max_reviews) ∧
      (∀ (it : Item) (rest : List Item) (st : LoopState),
         strippedText it ≠ "" → itemKey env it ∉ st.seen_keys →
         env.max_reviews ≤ (st.total_written : Int) + 1 →
         emitItems env (it :: rest) st = .capReturn (writeRow env it st)) ∧
      (∀ (items : List Item) (st st' : LoopState),
         (st.total_written : Int) < env.max_reviews →
         emitItems env items st = .capReturn st' → (st'.total_written : Int) = env.max_reviews) ∧
      (∀ (r : Round) (cards : List RawCard) (st st' : LoopState),
         detect_captcha_or_block r.page = false → r.evalRes = some cards →
         emitItems env (js_extract_new cards st.max_pos_parsed).items st = .capReturn st' →
         roundStep env r st = .ret st') ∧
      (∀ (rounds : Nat → Round) (fuel idx : Nat) (st st' : LoopState),
         roundStep env (rounds idx) st = .ret st' →
         collectLoop env rounds (fuel + 1) idx st = .done st') := by
  intro env hcap
  refine ⟨?_, ?_, ?_, ?_, ?_⟩
  · intro rounds seen out
    unfold stream_scroll_collect
    exact collect_cap_bound env hcap rounds env.max_rounds.toNat 0 _ (by simpa using hcap)
  · intro it rest st h1 h2 h3
    rw [emitItems, if_neg h1, if_neg h2]
    have hcond : env.max_reviews > 0 ∧ ((writeRow env it st).total_written : Int) ≥ env.max_reviews := by
      refine ⟨hcap, ?_⟩
      simp only [writeRow]
      push_cast
      omega
    rw [if_pos hcond]
  · intro items st st' hlt he
    exact (emit_cap_bound env hcap items st hlt).2 st' he
  · intro r cards st st' hdet hr he
    unfold roundStep
    simp only [hdet, Bool.false_eq_true, if_false]
    unfold roundBody
    rw [hr]
    simp only []
    rw [he]
  · intro rounds fuel idx st st' hstep
    unfold collectLoop
    rw [hstep]

/-- C5 witness: with cap 1, writing the first item cap-returns at once even
with more items in the list. -/
theorem c5_cap_stops_source_witness :
    emitItems c5Env [c5It] c5St = .capReturn (writeRow c5Env c5It c5St) :=
  (c5_cap_stops_source c5Env (by decide)).2.1 c5It [] c5St (by decide) (by decide) (by decide)

/-- C6: a collection round that does not raise the maximal observed position
above the watermark increments the stall counter and breaks the loop once the
counter reaches the configured limit; a round that advances the watermark
resets the counter to 0; the round budget itself also ends the loop, always
returning the state (and so the count) reached so far, without any error
outcome. -/
theorem c6_stall_terminates :
    ∀ (env : Env) (r : Round) (cards : List RawCard) (er : ExtractRes) (st st' : LoopState),
      detect_captcha_or_block r.page = false →
      r.evalRes = some cards →
      js_extract_new cards st.max_pos_parsed = er →
      emitItems env er.items st = .finished st' →
      (er.maxSeen ≤ st.max_pos_parsed →
         roundStep env r st =
           if ((st'.no_progress + 1 : Nat) : Int) ≥ env.no_progress_limit
           then .brk { st' with no_progress := st'.no_progress + 1 }
           else .next { st' with no_progress := st'.no_progress + 1 }) ∧
      (st.max_pos_parsed < er.maxSeen →
         roundStep env r st =
           if ((0 : Nat) : Int) ≥ env.no_progress_limit
           then .brk { st' with max_pos_parsed := er.maxSeen, no_progress := 0 }
           else .next { st' with max_pos_parsed := er.maxSeen, no_progress := 0 }) ∧
      (∀ (rounds : Nat → Round) (idx : Nat) (st0 : LoopState),
         collectLoop env rounds 0 idx st0 = .done st0) ∧
      (∀ (rounds : Nat → Round) (fuel idx : Nat) (st0 st1 : LoopState),
         roundStep env (rounds idx) st0 = .brk st1 →
         collectLoop env rounds (fuel + 1) idx st0 = .done st1) := by
  intro env r cards er st st' hdet hr her he
  subst her
  have hwm : st'.max_pos_parsed = st.max_pos_parsed := by
    have h := (emit_counters env (js_extract_new cards st.max_pos_parsed).items st).1
    rw [he] at h
    simpa [EmitStep.state] using h
  refine ⟨?_, ?_, ?_, ?_⟩
  · intro hstall
    unfold roundStep
    simp only [hdet, Bool.false_eq_true, if_false]
    unfold roundBody
    rw [hr]
    simp only []
    rw [he]
    dsimp only []
    have hprog : ¬ ((js_extract_new cards st.max_pos_parsed).maxSeen > st'.max_pos_parsed) := by
      omega
    rw [if_neg hprog]
  · intro hadv
    unfold roundStep
    simp only [hdet, Bool.false_eq_true, if_false]
    unfold roundBody
    rw [hr]
    simp only []
    rw [he]
    dsimp only []
    have hprog : (js_extract_new cards st.max_pos_parsed).maxSeen > st'.max_pos_parsed := by
      omega
    rw [if_pos hprog]
  · intro rounds idx st0
    rfl
  · intro rounds fuel idx st0 st1 hstep
    unfold collectLoop
    rw [hstep]

/-- C6 witness: with a stall limit of 1, one concrete empty round breaks the
loop, and the exhausted budget returns the current state. -/
theorem c6_stall_terminates_witness :
    roundStep c6Env c6Round c6St = .brk c6St' ∧
    collectLoop c6Env (fun _ => c6Round) 0 0 c6St = .done c6St := by
  have h := c6_stall_terminates c6Env c6Round [] ⟨[], 0⟩ c6St c6St (by decide) rfl (by decide)
    (by decide)
  constructor
  · have h1 := h.1 (by decide)
    rw [if_pos (by decide)] at h1
    exact h1
  · exact h.2.2.1 (fun _ => c6Round) 0 c6St

/-- C9: an item whose raw rating token is empty or not parsable as a number
is still emitted (when its text is non-empty and its key is new): the record
lands in the sink with the parsed rating set to the null sentinel and the raw
token preserved next to it; the empty token indeed parses to the sentinel. -/
theorem c9_malformed_rating_kept :
    ∀ (env : Env) (it : Item) (rest : List Item) (st : LoopState),
      to_float it.rating_raw = none →
      strippedText it ≠ "" →
      itemKey env it ∉ st.seen_keys →
      (emitItems env (it :: rest) st).state.out[st.out.length]? = some (mkRow env it) ∧
      (mkRow env it).rating = none ∧
      (mkRow env it).rating_raw = it.rating_raw ∧
      to_float "" = none := by
  intro env it rest st hr ht hk
  have hpre : (st.out ++ [mkRow env it]) <+: (emitItems env (it :: rest) st).state.out := by
    rw [emitItems, if_neg ht, if_neg hk]
    by_cases hc : env.max_reviews > 0 ∧ ((writeRow env it st).total_written : Int) ≥ env.max_reviews
    · rw [if_pos hc]
      simp [EmitStep.state, writeRow]
    · rw [if_neg hc]
      have h := emit_out_extends env rest (writeRow env it st)
      simpa [writeRow] using h
  obtain ⟨tail, htail⟩ := hpre
  refine ⟨?_, hr, rfl, rfl⟩
  rw [← htail, List.append_assoc, List.getElem?_append_right (le_refl st.out.length)]
  simp

/-- C9 witness: a concrete Cyrillic rating token is rejected by the parser
yet the record is appended with a null rating and the raw token kept. -/
theorem c9_malformed_rating_kept_witness :
    (emitItems c9Env [c9It] c9St).state.out[0]? = some (mkRow c9Env c9It) ∧
    (mkRow c9Env c9It).rating = none ∧
    (mkRow c9Env c9It).rating_raw = c9It.rating_raw := by
  have h := c9_malformed_rating_kept c9Env c9It [] c9St (by decide) (by decide) (by decide)
  exact ⟨h.1, h.2.1, h.2.2.1⟩

/-- C10: a per-source cap that is zero (the CLI default) or negative means
unlimited: the cap check can never fire, so the emit loop never cap-returns
regardless of the count already written, and an unblocked round can only end
in `break` (stall limit) or continue toward the round budget — never in
`return` and never waiting on the operator. -/
theorem c10_zero_cap_unlimited :
    ∀ (env : Env), env.max_reviews ≤ 0 →
      argDefaults.max_reviews = 0 ∧
      (∀ (items : List Item) (st : LoopState), (emitItems env items st).isCap = false) ∧
      (∀ (r : Round) (st : LoopState), detect_captcha_or_block r.page = false →
         (roundStep env r st).isRet = false ∧ (roundStep env r st).isHang = false) := by
  intro env hcap
  refine ⟨rfl, emit_no_cap env hcap, ?_⟩
  intro r st hdet
  unfold roundStep
  simp only [hdet, Bool.false_eq_true, if_false]
  unfold roundBody
  match hr : r.evalRes with
  | none =>
    simp only []
    constructor <;> (split_ifs <;> simp [StepRes.isRet, StepRes.isHang])
  | some cards =>
    simp only []
    match he : emitItems env (js_extract_new cards st.max_pos_parsed).items st with
    | .capReturn st1 =>
      have hc := emit_no_cap env hcap (js_extract_new cards st.max_pos_parsed).items st
      rw [he] at hc
      simp [EmitStep.isCap] at hc
    | .finished st1 =>
      constructor <;> (dsimp only []; split_ifs <;> simp [StepRes.isRet, StepRes.isHang])

/-- C10 witness: with the default cap 0 and seven records already written,
the emit loop does not cap-return on a concrete item and a concrete unblocked
round does not `return`. -/
theorem c10_zero_cap_unlimited_witness :
    (emitItems c10Env [c10It] c10St).isCap = false ∧
    (roundStep c10Env c10Round c10St).isRet = false :=
  ⟨(c10_zero_cap_unlimited c10Env (by decide)).2.1 [c10It] c10St,
   ((c10_zero_cap_unlimited c10Env (by decide)).2.2 c10Round c10St (by decide)).1⟩

/-- C4: evidence against the claim as stated.  The interactive prompt offers
`s` to "SKIP this URL" and `q` to "QUIT", and a navigation-time `quit` does
break the whole URL loop; but inside the round loop `stream_scroll_collect`
collapses `quit` and `skip` into the same `return total_written` (line 424),
so `main` cannot see the difference and continues with the next source.  On
this concrete two-URL run the operator answers `q` during collection of the
first source, yet the second source is still processed (two `collected`
outcomes); the contrast run with `q` at navigation time stops after one
outcome. -/
theorem c4_mid_collection_quit_does_not_stop_run :
    interactLoop [("q", c4Blocked)] = some "quit" ∧
    (runUrls c4Args [c4S1, c4S2] ⟨[], []⟩).2 =
      [UrlOutcome.collected 0, UrlOutcome.collected 0] ∧
    (runUrls c4Args [c4S3, c4S2] ⟨[], []⟩).2 = [UrlOutcome.quitNav] := by
  refine ⟨rfl, by decide, by decide⟩

/-- C8 counterexample: the claim promises zero records for every source the
detector reports blocked in non-interactive mode.  In this concrete headless
run the source emits one record in round 0, the detector reports blocked in
round 1, the handler resolves `skip` — and the source ends with one record,
not zero. -/
theorem c8_counterexample :
    detect_captcha_or_block (c8Session.rounds 1).page = true ∧
    handle_captcha_interactive c8Args.headful [] = some "skip" ∧
    (runUrls c8Args [c8Session] ⟨[], []⟩).2 = [UrlOutcome.collected 1] ∧
    (runUrls c8Args [c8Session] ⟨[], []⟩).1.out.length = 1 := by
  refine ⟨by decide, rfl, by decide, by decide⟩

/-- C8 (amended): in non-interactive (headless) mode the recovery handler
resolves to `skip` immediately, without consulting the operator; a source
whose navigation-time check reports blocked is skipped with zero records and
the run proceeds to the next source; a block detected mid-collection ends the
source at once with no further records (the state is returned unchanged). -/
theorem c8_headless_block_skips :
    ∀ (args : Args) (u : UrlSession) (s : RunState) (rest : List UrlSession),
      args.headful = false →
      u.gotoTimeout = false →
      detect_captcha_or_block u.navPage = true →
      (∀ script, handle_captcha_interactive args.headful script = some "skip") ∧
      processUrl args s u = (s, .skipNav) ∧
      runUrls args (u :: rest) s =
        ((runUrls args rest s).1, .skipNav :: (runUrls args rest s).2) ∧
      (∀ (env : Env) (r : Round) (st : LoopState), env.headful = false →
         detect_captcha_or_block r.page = true → roundStep env r st = .ret st) := by
  intro args u s rest hhead hgoto hdet
  have hh : ∀ script, handle_captcha_interactive args.headful script = some "skip" := by
    intro script
    rw [hhead]
    rfl
  have hp : processUrl args s u = (s, .skipNav) := by
    unfold processUrl
    simp only [hgoto, Bool.false_eq_true, if_false, hdet, if_true, hh]
    rw [if_neg (by decide : ¬ ("skip" : String) = "quit")]
  refine ⟨hh, hp, ?_, ?_⟩
  · simp [runUrls, hp]
  · intro env r st he hd
    unfold roundStep
    simp only [hd, if_true]
    have hh2 : handle_captcha_interactive env.headful r.script = some "skip" := by
      rw [he]
      rfl
    simp only [hh2]
    simp

/-- C8 (amended) witness: a concrete headless nav-blocked source is skipped
with the state untouched, and the handler answers `skip` even to a script
that types `q`. -/
theorem c8_headless_block_skips_witness :
    handle_captcha_interactive c8wArgs.headful [("q", c8Blocked)] = some "skip" ∧
    processUrl c8wArgs ⟨[], []⟩ c8wSession = (⟨[], []⟩, .skipNav) := by
  have h := c8_headless_block_skips c8wArgs c8wSession ⟨[], []⟩ [] rfl rfl (by decide)
  exact ⟨h.1 [("q", c8Blocked)], h.2.1⟩

end Scraper
